import Mathlib

/-!
Verification development for the `tui` layout/composition core
(`Buffer`, its compositor `Buffer.String`, and the style pipeline it
delegates to).

The model is a shallow embedding of the Go sources:

* `Style` models the subset of a `lipgloss.Style` that the `Buffer` API of
  this repository constructs and the render pipeline reads: the stored
  string (`SetString`/`Value`), width/height (0 = unset; `lipgloss`'s
  `set` clamps every size key to `max 0 v`), the four paddings, the four
  margins, and the two alignment positions.  Borders are never set by the
  repository's `Buffer` API, so the frame of a style is its margins plus
  its paddings.  Display width is modelled as the character count per
  line (single-column glyphs); positions are modelled by the three named
  constants (`Left`/`Top` = 0.0, `Center` = 0.5, `Right`/`Bottom` = 1.0)
  that the repository uses.
* `styleRender` models `lipgloss.Style.String()` (the `Render` pipeline
  for a borderless, non-inline style): word wrap at
  `width − leftPadding − rightPadding` (modelled as a hard wrap, which
  agrees with `reflow`'s `wordwrap`+`wrap` on lines without spaces),
  then padding, then height alignment, then horizontal alignment to
  `max(widestLine, width)`, then margins (margin rows are space-filled).
* Strings are handled as lists of newline-free lines (`Line`), joined
  with `'\n'` at the boundary, mirroring `getLines`/`strings.Split`.
-/

abbrev Line := List Char

/-- `strings.Split s "\n"` on the character list: always nonempty. -/
def splitNl : List Char → List Line
  | [] => [[]]
  | c :: rest =>
    match splitNl rest with
    | [] => [[]]
    | l :: ls => if c = '\n' then [] :: l :: ls else (c :: l) :: ls

/-- `strings.Repeat " " n`. -/
def sp (n : Nat) : Line := List.replicate n ' '

/-- Widest line of a block (`getLines`' second result / `lipgloss.Width`). -/
def blockW (ls : List Line) : Nat := (ls.map List.length).foldr max 0

/-- Running maximum with a strict comparison, as every `if x > max` loop
in the source computes it. -/
def foldMax (ws : List Nat) : Nat := ws.foldl (fun m h => if h > m then h else m) 0

/-- Worker for `chunk`, structurally recursive on a fuel that starts at
the line length and therefore never runs out (each step drops `n ≥ 1`
characters, so the zero-fuel arm is unreachable). -/
def chunkAux (n : Nat) : Nat → List Char → List Line
  | fuel, l =>
    if l.length ≤ n ∨ n = 0 then [l]
    else
      match fuel with
      | 0 => [l]
      | fuel + 1 => l.take n :: chunkAux n fuel (l.drop n)

/-- Hard wrap of one line into pieces of at most `n` characters: the
effect of `reflow`'s `wordwrap.String` followed by `wrap.String` on a
line without soft break points (the word-boundary preference of
`wordwrap` is elided; the repository's measured content in the claims is
space-free). `n = 0` never reaches this function (the callers guard
`limit < 1`). -/
def chunk (n : Nat) (l : List Char) : List Line := chunkAux n l.length l

/-- `wordwrap.String`+`wrap.String` over a block: a limit below 1 leaves
the text unchanged (as in `reflow`), otherwise each line is wrapped. -/
def wrapLines (limit : Int) (ls : List Line) : List Line :=
  if limit < 1 then ls else ls.flatMap (chunk limit.toNat)

/-- The three `lipgloss.Position` constants used by the repository:
`Left`/`Top` (0.0), `Center` (0.5), `Right`/`Bottom` (1.0). -/
inductive Pos where
  | start
  | center
  | ending
deriving Repr, DecidableEq

/-- Pad one line with `short` spaces, distributed per position, as
`alignTextHorizontal` does (`Center` splits with `math.Round(short/2)`
on the left). -/
def padShort (pos : Pos) (short : Nat) (l : Line) : Line :=
  match pos with
  | .start => l ++ sp short
  | .ending => sp short ++ l
  | .center =>
    let split := (short + 1) / 2
    let right := short - split
    sp split ++ l ++ sp right

/-- `alignTextHorizontal str pos width`: every line is brought to
`max(widestLine, width)` columns, the shortfall distributed per `pos`. -/
def alignLinesH (pos : Pos) (width : Nat) (ls : List Line) : List Line :=
  let widest := blockW ls
  ls.map (fun l =>
    let short := (widest - l.length) + (width - widest)
    if short > 0 then padShort pos short l else l)

/-- `alignTextVertical str pos height`: pad with empty lines up to
`height`; a height below the line count leaves the text unchanged. -/
def alignLinesV (pos : Pos) (height : Nat) (ls : List Line) : List Line :=
  if height < ls.length then ls
  else
    match pos with
    | .start => ls ++ List.replicate (height - ls.length) []
    | .center =>
      let n := height - ls.length
      let top := n / 2
      let bottom := n - top
      List.replicate top [] ++ ls ++ List.replicate bottom []
    | .ending => List.replicate (height - ls.length) [] ++ ls

/-- The modelled part of a `lipgloss.Style` as the repository's `Buffer`
API builds it (`lipgloss.NewStyle()` defaults: everything unset/zero,
alignments `Left`/`Top`). -/
structure Style where
  value : String := ""
  width : Nat := 0
  height : Nat := 0
  padTop : Nat := 0
  padRight : Nat := 0
  padBottom : Nat := 0
  padLeft : Nat := 0
  marTop : Nat := 0
  marRight : Nat := 0
  marBottom : Nat := 0
  marLeft : Nat := 0
  alignH : Pos := Pos.start
  alignV : Pos := Pos.start
deriving Repr, DecidableEq

namespace Style

/-- `Style.Width`: `lipgloss`'s `set` keeps size keys at `max 0 v`. -/
def setWidth (st : Style) (w : Int) : Style := { st with width := w.toNat }

/-- `Style.Height`, clamped like `setWidth`. -/
def setHeight (st : Style) (h : Int) : Style := { st with height := h.toNat }

/-- `GetHorizontalPadding`. -/
def hPadding (st : Style) : Nat := st.padLeft + st.padRight

/-- `GetVerticalPadding`. -/
def vPadding (st : Style) : Nat := st.padTop + st.padBottom

/-- `GetHorizontalFrameSize` (margins + paddings; no borders are ever
set through the repository's `Buffer` API). -/
def hFrame (st : Style) : Nat := st.marLeft + st.marRight + st.hPadding

/-- `GetVerticalFrameSize`. -/
def vFrame (st : Style) : Nat := st.marTop + st.marBottom + st.vPadding

/-- `applyMargins`: left/right margins pad every line, then top/bottom
margins add space-filled rows of the block's width. -/
def applyMarginsL (st : Style) (ls : List Line) : List Line :=
  let ls := ls.map (fun l => sp st.marLeft ++ l ++ sp st.marRight)
  let w := blockW ls
  List.replicate st.marTop (sp w) ++ ls ++ List.replicate st.marBottom (sp w)

/-- The first stages of the `lipgloss.Style.Render` pipeline on the
line-block of the stored string: wrap (only when a width is set), then
the four paddings, then the height alignment. -/
def preAlignLines (st : Style) : List Line :=
  let ls := splitNl st.value.data
  let ls := if st.width > 0 then
      wrapLines ((st.width : Int) - (st.padLeft : Int) - (st.padRight : Int)) ls
    else ls
  let ls := ls.map (fun l => sp st.padLeft ++ l)
  let ls := ls.map (fun l => l ++ sp st.padRight)
  let ls := List.replicate st.padTop [] ++ ls
  let ls := ls ++ List.replicate st.padBottom []
  if st.height > 0 then alignLinesV st.alignV st.height ls else ls

/-- The whole `Render` pipeline: the stages above, then the horizontal
alignment (skipped for a single line when no width is set), then the
margins. -/
def renderLines (st : Style) : List Line :=
  let ls := st.preAlignLines
  let ls := if ls.length = 1 ∧ st.width = 0 then ls else alignLinesH st.alignH st.width ls
  applyMarginsL st ls

/-- `Style.String()`: render the stored string through the pipeline. -/
def render (st : Style) : String :=
  String.mk (List.intercalate ['\n'] (renderLines st))

end Style

/-- `lipgloss.Size`: widest line and line count of a rendered string. -/
def lipglossSize (s : String) : Nat × Nat :=
  (blockW (splitNl s.data), (splitNl s.data).length)

/-- `BufferType` (`TextBuffer` | `ContainerBuffer`). -/
inductive BufferType where
  | TextBuffer
  | ContainerBuffer
deriving Repr, DecidableEq

/-- `Orientation` (`Vertical` | `Horizontal`). -/
inductive Orient where
  | Vertical
  | Horizontal
deriving Repr, DecidableEq

/-- The `Buffer` node.  Children are stored directly as `Buffer`s: the
Go slice holds `Component`s whose `Buf()` is the underlying `*Buffer`,
which the compositor mutates in place; the model threads that state. -/
inductive Buffer where
  | mk (style : Style) (bufferType : BufferType) (bufferOrientation : Orient)
       (componentsAlignment : Pos) (components : List Buffer)

compile_inductive% Buffer

namespace Buffer

def style : Buffer → Style
  | .mk s _ _ _ _ => s

def bufferType : Buffer → BufferType
  | .mk _ t _ _ _ => t

def bufferOrientation : Buffer → Orient
  | .mk _ _ o _ _ => o

def componentsAlignment : Buffer → Pos
  | .mk _ _ _ a _ => a

def components : Buffer → List Buffer
  | .mk _ _ _ _ cs => cs

/-- `New()`: default style, `TextBuffer`, `Vertical`, `Left`, no components. -/
def new : Buffer := .mk {} .TextBuffer .Vertical .start []

def withStyle (b : Buffer) (st : Style) : Buffer :=
  .mk st b.bufferType b.bufferOrientation b.componentsAlignment b.components

def withComponents (b : Buffer) (cs : List Buffer) : Buffer :=
  .mk b.style b.bufferType b.bufferOrientation b.componentsAlignment cs

/-- `Add` (the `fmt.Sprintf` formatting with no arguments is modelled as
the string itself): append to the stored string. -/
def add (b : Buffer) (s : String) : Buffer :=
  b.withStyle { b.style with value := b.style.value ++ s }

/-- `Addln`: a newline first, unless the buffer is still empty. -/
def addln (b : Buffer) (s : String) : Buffer :=
  if b.style.value ≠ "" then (b.add "\n").add s else b.add s

/-- `Width()` getter. -/
def Width (b : Buffer) : Nat := b.style.width

/-- `Width(w)` setter. -/
def setWidth (b : Buffer) (w : Int) : Buffer := b.withStyle (b.style.setWidth w)

/-- `Height()` getter. -/
def Height (b : Buffer) : Nat := b.style.height

/-- `Height(h)` setter. -/
def setHeight (b : Buffer) (h : Int) : Buffer := b.withStyle (b.style.setHeight h)

/-- `UnsetStr`. -/
def UnsetStr (b : Buffer) : Buffer := b.withStyle { b.style with value := "" }

/-- `Size()`: `lipgloss.Size(b.style.String())`. -/
def Size (b : Buffer) : Nat × Nat := lipglossSize b.style.render

/-- `FrameSize()`. -/
def FrameSize (b : Buffer) : Nat × Nat := (b.style.hFrame, b.style.vFrame)

end Buffer

/-- The nesting size of a buffer: 1 plus the nesting sizes of its
components.  It measures only the tree shape (styles are ignored), so
every style-level operation preserves it; it bounds the recursion depth
of the compositor and is used as its fuel. -/
def csize : Buffer → Nat :=
  @Buffer.rec (fun _ => Nat) (fun _ => Nat)
    (fun _ _ _ _ _ ihl => 1 + ihl) 1 (fun _ _ ihb ihl => ihb + ihl)

/-- The nesting size of a component list: 1 plus the nesting sizes of
its members. -/
def csizeL : List Buffer → Nat :=
  @Buffer.rec_1 (fun _ => Nat) (fun _ => Nat)
    (fun _ _ _ _ _ ihl => 1 + ihl) 1 (fun _ _ ihb ihl => ihb + ihl)

theorem csize_mk (s : Style) (ty : BufferType) (o : Orient) (a : Pos)
    (cs : List Buffer) : csize (.mk s ty o a cs) = 1 + csizeL cs := rfl

theorem csizeL_nil : csizeL [] = 1 := rfl

theorem csizeL_cons (c : Buffer) (cs : List Buffer) :
    csizeL (c :: cs) = csize c + csizeL cs := rfl

/-- `lipgloss.JoinHorizontal`: blocks side by side, shorter blocks padded
with empty lines per the position, each block's lines padded to the
block's own widest line. -/
def joinHorizontal (pos : Pos) (strs : List String) : String :=
  match strs with
  | [] => ""
  | [s] => s
  | strs =>
    let blocks := strs.map (fun s => splitNl s.data)
    let widths := blocks.map blockW
    let maxHeight := foldMax (blocks.map List.length)
    let blocks := blocks.map (fun bl =>
      if maxHeight ≤ bl.length then bl
      else
        let extra := maxHeight - bl.length
        match pos with
        | .start => bl ++ List.replicate extra []
        | .ending => List.replicate extra [] ++ bl
        | .center =>
          let split := (extra + 1) / 2
          List.replicate split [] ++ bl ++ List.replicate (extra - split) [])
    let rows := (List.range maxHeight).map (fun r =>
      ((blocks.zip widths).map
        (fun p => ((p.1.getD r []) ++ sp (p.2 - (p.1.getD r []).length)))).flatten)
    String.mk (List.intercalate ['\n'] rows)

/-- `lipgloss.JoinVertical`: blocks stacked; every line brought to the
width of the widest line over all blocks, per the position. -/
def joinVertical (pos : Pos) (strs : List String) : String :=
  match strs with
  | [] => ""
  | [s] => s
  | strs =>
    let blocks := strs.map (fun s => splitNl s.data)
    let maxW := foldMax (blocks.map blockW)
    let rows := blocks.flatMap (fun bl =>
      bl.map (fun l =>
        let w := maxW - l.length
        match pos with
        | .start => l ++ sp w
        | .ending => sp w ++ l
        | .center =>
          if w < 1 then l
          else
            let split := (w + 1) / 2
            let right := w - split
            sp (w - right) ++ l ++ sp right))
    String.mk (List.intercalate ['\n'] rows)

/-- The terminal-size fallback of `Buffer.String`: when a dimension is
unset, query the terminal source `t` and, for each dimension still unset
with a positive terminal dimension, set it to terminal minus own frame. -/
def applyTerminalFallback (t : Nat × Nat) (b : Buffer) : Buffer :=
  if b.Width = 0 ∨ b.Height = 0 then
    let fw := b.style.hFrame
    let fh := b.style.vFrame
    let b := if b.Width = 0 ∧ t.1 > 0 then b.setWidth ((t.1 : Int) - (fw : Int)) else b
    let b := if b.Height = 0 ∧ t.2 > 0 then b.setHeight ((t.2 : Int) - (fh : Int)) else b
    b
  else b

/-- The running-maximum scan of the measurement pass: initial
`(maxWidth, mWIndex) = (0, 0)`, updated only on a strictly greater
width, exactly as the `if w > maxWidth` loop does. -/
def runMaxAux (i : Nat) (acc : Nat × Nat) : List Nat → Nat × Nat
  | [] => acc
  | w :: ws => runMaxAux (i + 1) (if w > acc.1 then (w, i) else acc) ws

def runMax (ws : List Nat) : Nat × Nat := runMaxAux 0 (0, 0) ws

/-- Render every buffer of a list with `child`, returning the mutated
buffers and their rendered strings (the `for i, buf := range buffers`
loops, with the width adjustment already applied to the list). -/
def renderEach (child : Buffer → Buffer × String) : List Buffer → List Buffer × List String
  | [] => ([], [])
  | c :: rest =>
    let r := child c
    let rs := renderEach child rest
    (r.1 :: rs.1, r.2 :: rs.2)

/-- The width adjustment of the `Horizontal` loop: every child's width is
set to its measured width minus the per-child subtraction minus its own
frame; the child at the running-max index additionally loses the
remainder when that is positive. -/
def hAdjusted (cs : List Buffer) (dims : List (Nat × Nat))
    (subW subD : Int) (mW : Nat) : List Buffer :=
  ((List.range cs.length).zip (cs.zip dims)).map (fun p =>
    let i := p.1
    let c := p.2.1
    let d := p.2.2
    let w : Int := (d.1 : Int) - subW - (c.style.hFrame : Int)
    let w := if i = mW ∧ subD > 0 then w - subD else w
    c.setWidth w)

/-- The width adjustment of the `Vertical` loop: only children measured
wider than the container are shrunk to the container width minus padding
minus their own frame. -/
def vAdjusted (bw padH : Nat) (cs : List Buffer) (dims : List (Nat × Nat)) : List Buffer :=
  (cs.zip dims).map (fun p =>
    if bw > 0 ∧ p.2.1 > bw then
      p.1.setWidth ((bw : Int) - (padH : Int) - (p.1.style.hFrame : Int))
    else p.1)

/-- The `Horizontal` arm of the compositor: shrink-to-fit or compute the
delta, snap the height, distribute the subtraction (floor division, the
remainder to the running-max child), render the children and join them. -/
def horizontalBranch (child : Buffer → Buffer × String) (b : Buffer)
    (padH padV : Nat) (dims : List (Nat × Nat))
    (totalWidth maxHeight : Nat) (mw : Nat × Nat) : Buffer × String :=
  let elNum := b.components.length
  let wd :=
    if (b.Width > 0 ∧ totalWidth < b.Width) ∨ b.Width = 0 then
      (b.setWidth (totalWidth : Int), (0 : Int))
    else (b, (totalWidth : Int) - (b.Width : Int) - (padH : Int))
  let b := wd.1
  let deltaWidth := wd.2
  let b := if (maxHeight < b.Height ∧ b.Height > 0) ∨ b.Height = 0 then
      b.setHeight ((maxHeight : Int) + (padV : Int))
    else b
  let subtractWidth := Int.fdiv deltaWidth (elNum : Int)
  let subtractWidthDelta := deltaWidth - subtractWidth * (elNum : Int)
  let rs := renderEach child (hAdjusted b.components dims subtractWidth subtractWidthDelta mw.2)
  let b := b.withComponents rs.1
  let b := b.add (joinHorizontal b.componentsAlignment rs.2)
  (b, b.style.render)

/-- The `Vertical` arm of the compositor: snap width to the widest child
(plus padding) when smaller or unset, snap height to the children's total
(plus padding) when smaller or unset, shrink over-wide children, render
and join. -/
def verticalBranch (child : Buffer → Buffer × String) (b : Buffer)
    (padH padV : Nat) (dims : List (Nat × Nat))
    (totalHeight maxWidth : Nat) : Buffer × String :=
  let b := if (maxWidth < b.Width ∧ b.Width > 0) ∨ b.Width = 0 then
      b.setWidth ((maxWidth : Int) + (padH : Int))
    else b
  let b := if (totalHeight < b.Height ∧ b.Height > 0) ∨ b.Height = 0 then
      b.setHeight ((totalHeight : Int) + (padV : Int))
    else b
  let rs := renderEach child (vAdjusted b.Width padH b.components dims)
  let b := b.withComponents rs.1
  let b := b.add (joinVertical b.componentsAlignment rs.2)
  (b, b.style.render)

/-- The `TextBuffer` arm: when there are components and no stored text,
append every component's rendered string; the style then renders the
stored string. -/
def textBranch (child : Buffer → Buffer × String) (b : Buffer) : Buffer × String :=
  let b :=
    if 0 < b.components.length ∧ b.style.value = "" then
      let rs := renderEach child b.components
      let b := b.withComponents rs.1
      rs.2.foldl Buffer.add b
    else b
  (b, b.style.render)

/-- One step of `Buffer.String`, with the recursive rendering of a child
supplied as `child`.  Mirrors the body of the Go method: the early empty
return, then the `ContainerBuffer` case (unset the string, terminal
fallback, measurement pass over `Size()` of every component, orientation
branch) and the `TextBuffer` case. -/
def renderCore (child : Buffer → Buffer × String) (t : Nat × Nat) (b : Buffer) :
    Buffer × String :=
  let elNum := b.components.length
  if b.style.value = "" ∧ elNum = 0 then (b, "")
  else
    match b.bufferType with
    | .ContainerBuffer =>
      if 0 < elNum then
        let b := applyTerminalFallback t b.UnsetStr
        let padH := b.style.hPadding
        let padV := b.style.vPadding
        let dims := b.components.map Buffer.Size
        let totalWidth := (dims.map Prod.fst).sum
        let totalHeight := (dims.map Prod.snd).sum
        let mw := runMax (dims.map Prod.fst)
        let maxHeight := foldMax (dims.map Prod.snd)
        match b.bufferOrientation with
        | .Horizontal => horizontalBranch child b padH padV dims totalWidth maxHeight mw
        | .Vertical => verticalBranch child b padH padV dims totalHeight mw.1
      else (b, b.style.render)
    | .TextBuffer => textBranch child b

/-- Fuelled recursive renderer: each level of the component tree consumes
one unit of fuel; with fuel at least the nesting size of the buffer the
zero case is never reached (the fuel handed out by `renderB` bounds
every recursive call, since `csize` strictly decreases from a buffer to
each of its components). -/
def renderF : Nat → Nat × Nat → Buffer → Buffer × String
  | 0, _, b => (b, "")
  | n + 1, t, b => renderCore (renderF n t) t b

/-- `Buffer.String()` with the terminal-size source `t`: the returned
pair is the mutated buffer and the rendered string.  `csizeL
b.components` strictly bounds the nesting size of every component, so it
is always enough fuel for the recursion. -/
def renderB (t : Nat × Nat) (b : Buffer) : Buffer × String :=
  renderCore (renderF (csizeL b.components) t) t b

/-- The string returned by `Buffer.String()`. -/
def BufferString (t : Nat × Nat) (b : Buffer) : String := (renderB t b).2

/-! Basic facts about the model's operations. -/

theorem splitNl_ne_nil (cs : List Char) : splitNl cs ≠ [] := by
  induction cs with
  | nil => simp [splitNl]
  | cons c rest ih =>
    simp only [splitNl]
    match h : splitNl rest with
    | [] => exact absurd h ih
    | l :: ls =>
      by_cases hc : c = '\n' <;> simp [hc]

theorem lipglossSize_snd_pos (s : String) : 1 ≤ (lipglossSize s).2 := by
  have := splitNl_ne_nil s.data
  simp only [lipglossSize]
  exact List.length_pos.mpr this

theorem Size_snd_pos (b : Buffer) : 1 ≤ b.Size.2 := lipglossSize_snd_pos _

namespace Buffer

@[simp] theorem style_mk (s : Style) (ty : BufferType) (o : Orient) (a : Pos)
    (cs : List Buffer) : (Buffer.mk s ty o a cs).style = s := rfl

@[simp] theorem bufferType_mk (s : Style) (ty : BufferType) (o : Orient) (a : Pos)
    (cs : List Buffer) : (Buffer.mk s ty o a cs).bufferType = ty := rfl

@[simp] theorem bufferOrientation_mk (s : Style) (ty : BufferType) (o : Orient) (a : Pos)
    (cs : List Buffer) : (Buffer.mk s ty o a cs).bufferOrientation = o := rfl

@[simp] theorem componentsAlignment_mk (s : Style) (ty : BufferType) (o : Orient) (a : Pos)
    (cs : List Buffer) : (Buffer.mk s ty o a cs).componentsAlignment = a := rfl

@[simp] theorem components_mk (s : Style) (ty : BufferType) (o : Orient) (a : Pos)
    (cs : List Buffer) : (Buffer.mk s ty o a cs).components = cs := rfl

@[simp] theorem style_withStyle (b : Buffer) (st : Style) : (b.withStyle st).style = st := by
  cases b; rfl

@[simp] theorem bufferType_withStyle (b : Buffer) (st : Style) :
    (b.withStyle st).bufferType = b.bufferType := by cases b; rfl

@[simp] theorem bufferOrientation_withStyle (b : Buffer) (st : Style) :
    (b.withStyle st).bufferOrientation = b.bufferOrientation := by cases b; rfl

@[simp] theorem componentsAlignment_withStyle (b : Buffer) (st : Style) :
    (b.withStyle st).componentsAlignment = b.componentsAlignment := by cases b; rfl

@[simp] theorem components_withStyle (b : Buffer) (st : Style) :
    (b.withStyle st).components = b.components := by cases b; rfl

@[simp] theorem style_withComponents (b : Buffer) (cs : List Buffer) :
    (b.withComponents cs).style = b.style := by cases b; rfl

@[simp] theorem components_withComponents (b : Buffer) (cs : List Buffer) :
    (b.withComponents cs).components = cs := by cases b; rfl

@[simp] theorem bufferType_withComponents (b : Buffer) (cs : List Buffer) :
    (b.withComponents cs).bufferType = b.bufferType := by cases b; rfl

@[simp] theorem bufferOrientation_withComponents (b : Buffer) (cs : List Buffer) :
    (b.withComponents cs).bufferOrientation = b.bufferOrientation := by cases b; rfl

@[simp] theorem componentsAlignment_withComponents (b : Buffer) (cs : List Buffer) :
    (b.withComponents cs).componentsAlignment = b.componentsAlignment := by cases b; rfl

end Buffer

/-! Concrete buffers used by the claim instances. -/

/-- A plain text leaf: `New()` followed by `Add(s)`. -/
def textLeaf (s : String) : Buffer := Buffer.new.add s

/-- The Horizontal shrink scenario of the spec's testable property 3:
three text children of measured widths `[5, 9, 9]`, container width 15,
padding 0. -/
def hShrinkTree : Buffer :=
  (Buffer.mk {} .ContainerBuffer .Horizontal .start
    [textLeaf "aaaaa", textLeaf "bbbbbbbbb", textLeaf "ccccccccc"]).setWidth 15

/-- C1: the claim predicts allocated child widths `[3, 7, 5]` (remainder
to the *last* child tied for the running maximum, index 2).  False: the
running-max scan updates only on a strictly greater width (`if w >
maxWidth`), so among `[5, 9, 9]` the tracked index is 1 (the first child
of width 9) and the allocation is `[3, 5, 7]`. -/
theorem hShrink_remainder_counterexample :
    ((renderB (0, 0) hShrinkTree).1.components.map Buffer.Width) ≠ [3, 7, 5] := by
  decide

/-- C1 (amended): in horizontal shrinking the remainder
`delta − perChild·childCount` is subtracted once more from the child at
the running-max index, where the scan keeps the *first* child attaining
the maximum (ties do not update the index): for measured widths
`[5, 9, 9]` the scan yields index 1, and with explicit width 15 and
padding 0 the allocated child widths are `[3, 5, 7]`. -/
theorem hShrink_remainder_amended :
    runMax [5, 9, 9] = (9, 1) ∧
    ((renderB (0, 0) hShrinkTree).1.components.map Buffer.Width) = [3, 5, 7] := by
  decide

/-- A tree on which repeated rendering oscillates: Horizontal container
of explicit width 4, padding 0, with two text children of measured
widths 1 and 9. -/
def idemTree : Buffer :=
  (Buffer.mk {} .ContainerBuffer .Horizontal .start
    [textLeaf "a", textLeaf "bbbbbbbbb"]).setWidth 4

/-- C2: rendering `idemTree` twice with no mutation in between is not
idempotent.  The first call shrinks the children's widths by
`perChild = 3` each, which drives the first child's width to `1−3 < 0`;
the lipgloss setter clamps it to 0, i.e. *unset*, so on the second call
that child measures at its natural width again and the whole shrink
computation runs anew: the second call mutates the second child's stored
width from 6 to 4 and produces a different string. -/
theorem render_second_call_mutates :
    ((renderB (0, 0) idemTree).1.components.map Buffer.Width = [0, 6]) ∧
    ((renderB (0, 0) (renderB (0, 0) idemTree).1).1.components.map Buffer.Width = [0, 4]) ∧
    ((renderB (0, 0) idemTree).2 ≠ (renderB (0, 0) (renderB (0, 0) idemTree).1).2) := by
  decide

/-! Field-preservation lemmas for the buffer operations. -/

namespace Buffer

@[simp] theorem components_setWidth (b : Buffer) (w : Int) :
    (b.setWidth w).components = b.components := by simp [Buffer.setWidth]

@[simp] theorem components_setHeight (b : Buffer) (h : Int) :
    (b.setHeight h).components = b.components := by simp [Buffer.setHeight]

@[simp] theorem components_UnsetStr (b : Buffer) :
    b.UnsetStr.components = b.components := by simp [Buffer.UnsetStr]

@[simp] theorem components_add (b : Buffer) (s : String) :
    (b.add s).components = b.components := by simp [Buffer.add]

@[simp] theorem bufferType_setWidth (b : Buffer) (w : Int) :
    (b.setWidth w).bufferType = b.bufferType := by simp [Buffer.setWidth]

@[simp] theorem bufferType_setHeight (b : Buffer) (h : Int) :
    (b.setHeight h).bufferType = b.bufferType := by simp [Buffer.setHeight]

@[simp] theorem bufferType_UnsetStr (b : Buffer) :
    b.UnsetStr.bufferType = b.bufferType := by simp [Buffer.UnsetStr]

@[simp] theorem bufferType_add (b : Buffer) (s : String) :
    (b.add s).bufferType = b.bufferType := by simp [Buffer.add]

@[simp] theorem bufferOrientation_setWidth (b : Buffer) (w : Int) :
    (b.setWidth w).bufferOrientation = b.bufferOrientation := by simp [Buffer.setWidth]

@[simp] theorem bufferOrientation_setHeight (b : Buffer) (h : Int) :
    (b.setHeight h).bufferOrientation = b.bufferOrientation := by simp [Buffer.setHeight]

@[simp] theorem bufferOrientation_UnsetStr (b : Buffer) :
    b.UnsetStr.bufferOrientation = b.bufferOrientation := by simp [Buffer.UnsetStr]

@[simp] theorem componentsAlignment_setWidth (b : Buffer) (w : Int) :
    (b.setWidth w).componentsAlignment = b.componentsAlignment := by simp [Buffer.setWidth]

@[simp] theorem componentsAlignment_setHeight (b : Buffer) (h : Int) :
    (b.setHeight h).componentsAlignment = b.componentsAlignment := by simp [Buffer.setHeight]

@[simp] theorem componentsAlignment_UnsetStr (b : Buffer) :
    b.UnsetStr.componentsAlignment = b.componentsAlignment := by simp [Buffer.UnsetStr]

@[simp] theorem style_setWidth (b : Buffer) (w : Int) :
    (b.setWidth w).style = b.style.setWidth w := by simp [Buffer.setWidth]

@[simp] theorem style_setHeight (b : Buffer) (h : Int) :
    (b.setHeight h).style = b.style.setHeight h := by simp [Buffer.setHeight]

@[simp] theorem style_UnsetStr (b : Buffer) :
    b.UnsetStr.style = { b.style with value := "" } := by simp [Buffer.UnsetStr]

@[simp] theorem style_add (b : Buffer) (s : String) :
    (b.add s).style = { b.style with value := b.style.value ++ s } := by simp [Buffer.add]

end Buffer

namespace Style

@[simp] theorem width_setWidth (st : Style) (w : Int) :
    (st.setWidth w).width = w.toNat := rfl

@[simp] theorem height_setWidth (st : Style) (w : Int) :
    (st.setWidth w).height = st.height := rfl

@[simp] theorem width_setHeight (st : Style) (h : Int) :
    (st.setHeight h).width = st.width := rfl

@[simp] theorem height_setHeight (st : Style) (h : Int) :
    (st.setHeight h).height = h.toNat := rfl

@[simp] theorem value_setWidth (st : Style) (w : Int) :
    (st.setWidth w).value = st.value := rfl

@[simp] theorem value_setHeight (st : Style) (h : Int) :
    (st.setHeight h).value = st.value := rfl

@[simp] theorem hPadding_setWidth (st : Style) (w : Int) :
    (st.setWidth w).hPadding = st.hPadding := rfl

@[simp] theorem hPadding_setHeight (st : Style) (h : Int) :
    (st.setHeight h).hPadding = st.hPadding := rfl

@[simp] theorem vPadding_setWidth (st : Style) (w : Int) :
    (st.setWidth w).vPadding = st.vPadding := rfl

@[simp] theorem vPadding_setHeight (st : Style) (h : Int) :
    (st.setHeight h).vPadding = st.vPadding := rfl

@[simp] theorem hFrame_setWidth (st : Style) (w : Int) :
    (st.setWidth w).hFrame = st.hFrame := rfl

@[simp] theorem hFrame_setHeight (st : Style) (h : Int) :
    (st.setHeight h).hFrame = st.hFrame := rfl

@[simp] theorem vFrame_setWidth (st : Style) (w : Int) :
    (st.setWidth w).vFrame = st.vFrame := rfl

@[simp] theorem vFrame_setHeight (st : Style) (h : Int) :
    (st.setHeight h).vFrame = st.vFrame := rfl

end Style

/-! Facts about the terminal-size fallback. -/

theorem atf_components (t : Nat × Nat) (b : Buffer) :
    (applyTerminalFallback t b).components = b.components := by
  simp only [applyTerminalFallback]
  split_ifs <;> simp

theorem atf_bufferType (t : Nat × Nat) (b : Buffer) :
    (applyTerminalFallback t b).bufferType = b.bufferType := by
  simp only [applyTerminalFallback]
  split_ifs <;> simp

theorem atf_bufferOrientation (t : Nat × Nat) (b : Buffer) :
    (applyTerminalFallback t b).bufferOrientation = b.bufferOrientation := by
  simp only [applyTerminalFallback]
  split_ifs <;> simp

theorem atf_componentsAlignment (t : Nat × Nat) (b : Buffer) :
    (applyTerminalFallback t b).componentsAlignment = b.componentsAlignment := by
  simp only [applyTerminalFallback]
  split_ifs <;> simp

theorem atf_value (t : Nat × Nat) (b : Buffer) :
    (applyTerminalFallback t b).style.value = b.style.value := by
  simp only [applyTerminalFallback]
  split_ifs <;> simp [Style.setWidth, Style.setHeight]

theorem atf_hPadding (t : Nat × Nat) (b : Buffer) :
    (applyTerminalFallback t b).style.hPadding = b.style.hPadding := by
  simp only [applyTerminalFallback]
  split_ifs <;> simp [Style.setWidth, Style.setHeight, Style.hPadding]

theorem atf_vPadding (t : Nat × Nat) (b : Buffer) :
    (applyTerminalFallback t b).style.vPadding = b.style.vPadding := by
  simp only [applyTerminalFallback]
  split_ifs <;> simp [Style.setWidth, Style.setHeight, Style.vPadding]

theorem atf_height_of_ne (t : Nat × Nat) (b : Buffer) (h : b.Height ≠ 0) :
    (applyTerminalFallback t b).style.height = b.style.height := by
  simp only [applyTerminalFallback]
  split_ifs <;>
    simp_all [Buffer.Height, Buffer.setWidth, Buffer.setHeight, Style.setWidth, Style.setHeight]

theorem atf_width_of_ne (t : Nat × Nat) (b : Buffer) (h : b.Width ≠ 0) :
    (applyTerminalFallback t b).style.width = b.style.width := by
  simp only [applyTerminalFallback]
  split_ifs <;>
    simp_all [Buffer.Width, Buffer.setWidth, Buffer.setHeight, Style.setWidth, Style.setHeight]

/-- An empty `ContainerBuffer` with unset width and height. -/
def emptyContainer : Buffer := Buffer.mk {} .ContainerBuffer .Vertical .start []

/-- C3: the claim predicts that rendering an empty container with a
terminal of (80,24) allocates effective size (80,24) minus its own frame
(here zero).  False: with zero components `String()` returns before the
terminal-size query, so no dimension is allocated at all. -/
theorem empty_container_fallback_counterexample :
    ¬ ((renderB (80, 24) emptyContainer).1.Width = 80 ∧
       (renderB (80, 24) emptyContainer).1.Height = 24) := by
  decide

/-- C3 (amended): a container with zero components never reaches the
terminal-size fallback: `String()` leaves the buffer unchanged, its
result does not depend on the terminal size, and it returns the empty
string when no text is stored (otherwise the stored text rendered
through the style). -/
theorem empty_container_no_fallback (t tp : Nat × Nat) (b : Buffer)
    (hc : b.bufferType = BufferType.ContainerBuffer) (h : b.components = []) :
    (renderB t b).1 = b ∧ renderB t b = renderB tp b ∧
    (renderB t b).2 = (if b.style.value = "" then "" else b.style.render) := by
  simp only [renderB, renderCore, h, hc, List.length_nil]
  by_cases hv : b.style.value = "" <;> simp [hv]

/-- Closed instance of `empty_container_no_fallback` at the empty
container and terminal sizes (80,24) and (0,0). -/
theorem empty_container_no_fallback_witness :
    emptyContainer.bufferType = BufferType.ContainerBuffer ∧
    emptyContainer.components = [] ∧
    ((renderB (80, 24) emptyContainer).1 = emptyContainer ∧
     renderB (80, 24) emptyContainer = renderB (0, 0) emptyContainer ∧
     (renderB (80, 24) emptyContainer).2 =
       (if emptyContainer.style.value = "" then "" else emptyContainer.style.render)) :=
  ⟨rfl, rfl, empty_container_no_fallback (80, 24) (0, 0) emptyContainer rfl rfl⟩

/-! Structural lemmas for the Vertical arm of the compositor. -/

theorem verticalBranch_height (child : Buffer → Buffer × String) (b : Buffer)
    (padH padV : Nat) (dims : List (Nat × Nat)) (tH mW : Nat) :
    (verticalBranch child b padH padV dims tH mW).1.style.height =
      (if (tH < b.Height ∧ b.Height > 0) ∨ b.Height = 0 then tH + padV else b.style.height) := by
  simp only [verticalBranch]
  split_ifs <;>
    simp_all [Buffer.Height, Buffer.Width, Style.setWidth, Style.setHeight] <;> omega

theorem verticalBranch_width (child : Buffer → Buffer × String) (b : Buffer)
    (padH padV : Nat) (dims : List (Nat × Nat)) (tH mW : Nat) :
    (verticalBranch child b padH padV dims tH mW).1.style.width =
      (if (mW < b.Width ∧ b.Width > 0) ∨ b.Width = 0 then mW + padH else b.style.width) := by
  simp only [verticalBranch]
  split_ifs <;>
    simp_all [Buffer.Height, Buffer.Width, Style.setWidth, Style.setHeight] <;> omega

/-- `Buffer.String` on a Vertical container with components unfolds to
the Vertical arm applied after `UnsetStr` and the terminal fallback,
with the measurement pass over the components. -/
theorem renderB_container_vertical (t : Nat × Nat) (b : Buffer)
    (hc : b.bufferType = BufferType.ContainerBuffer)
    (ho : b.bufferOrientation = Orient.Vertical)
    (hne : b.components ≠ []) :
    renderB t b =
      verticalBranch (renderF (csizeL b.components) t) (applyTerminalFallback t b.UnsetStr)
        (applyTerminalFallback t b.UnsetStr).style.hPadding
        (applyTerminalFallback t b.UnsetStr).style.vPadding
        ((applyTerminalFallback t b.UnsetStr).components.map Buffer.Size)
        ((((applyTerminalFallback t b.UnsetStr).components.map Buffer.Size).map Prod.snd).sum)
        ((runMax (((applyTerminalFallback t b.UnsetStr).components.map Buffer.Size).map Prod.fst)).1) := by
  have hlen : 0 < b.components.length := List.length_pos.mpr hne
  have hcond : ¬(b.style.value = "" ∧ b.components.length = 0) := by
    intro hx
    omega
  simp only [renderB, renderCore, hcond, hc, hlen, if_true, if_false]
  simp [atf_bufferOrientation, Buffer.bufferOrientation_UnsetStr, ho, hlen]

theorem sizes_height_sum_pos (cs : List Buffer) (h : cs ≠ []) :
    1 ≤ ((cs.map Buffer.Size).map Prod.snd).sum := by
  match cs with
  | [] => exact absurd rfl h
  | c :: cs =>
    have := Size_snd_pos c
    simp only [List.map_cons, List.sum_cons]
    omega

/-- A Vertical container with an explicit height (10) larger than its
children's total measured height (1). -/
def vTallTree : Buffer :=
  (Buffer.mk {} .ContainerBuffer .Vertical .start [textLeaf "x"]).setHeight 10

/-- C4: the claim predicts the explicit height 10 is kept.  False: the
code's condition `totalHeight < b.Height()` fires exactly when the
explicit height is *larger* than the children's total, and snaps the
height down to `totalHeight + verticalPadding` = 1. -/
theorem vertical_larger_height_counterexample :
    (renderB (0, 0) vTallTree).1.style.height ≠ 10 := by
  decide

/-- C4 (amended): a Vertical container whose explicit height is larger
than the sum of its children's measured heights has its height *reduced*
to that sum plus the vertical padding (shrink-to-fit); it is an explicit
height smaller than or equal to the children's total that is kept. -/
theorem vertical_larger_height_shrinks (t : Nat × Nat) (b : Buffer)
    (hc : b.bufferType = BufferType.ContainerBuffer)
    (ho : b.bufferOrientation = Orient.Vertical)
    (hne : b.components ≠ [])
    (hh : ((b.components.map Buffer.Size).map Prod.snd).sum < b.style.height) :
    (renderB t b).1.style.height =
      ((b.components.map Buffer.Size).map Prod.snd).sum + b.style.vPadding := by
  have hsum := sizes_height_sum_pos b.components hne
  have hHne : b.UnsetStr.Height ≠ 0 := by
    simp only [Buffer.Height, Buffer.style_UnsetStr]
    omega
  have hcomp : (applyTerminalFallback t b.UnsetStr).components = b.components := by
    rw [atf_components]; simp
  have hH : (applyTerminalFallback t b.UnsetStr).Height = b.style.height := by
    show (applyTerminalFallback t b.UnsetStr).style.height = _
    rw [atf_height_of_ne _ _ hHne]
    simp
  have hPad : (applyTerminalFallback t b.UnsetStr).style.vPadding = b.style.vPadding := by
    rw [atf_vPadding]
    simp [Style.vPadding]
  rw [renderB_container_vertical t b hc ho hne, verticalBranch_height, hcomp, hPad, hH]
  have : (((b.components.map Buffer.Size).map Prod.snd).sum < b.style.height ∧
      b.style.height > 0) ∨ b.style.height = 0 := by omega
  rw [if_pos this]

/-- Closed instance of `vertical_larger_height_shrinks` at `vTallTree`:
the explicit height 10 ends as 1 + 0. -/
theorem vertical_larger_height_shrinks_witness :
    (vTallTree.bufferType = BufferType.ContainerBuffer ∧
     vTallTree.bufferOrientation = Orient.Vertical ∧
     vTallTree.components ≠ [] ∧
     ((vTallTree.components.map Buffer.Size).map Prod.snd).sum < vTallTree.style.height) ∧
    (renderB (0, 0) vTallTree).1.style.height =
      ((vTallTree.components.map Buffer.Size).map Prod.snd).sum + vTallTree.style.vPadding :=
  ⟨⟨rfl, rfl, List.cons_ne_nil _ _, by decide⟩,
   vertical_larger_height_shrinks (0, 0) vTallTree rfl rfl (List.cons_ne_nil _ _) (by decide)⟩

/-- A Vertical container with an explicit width (10) larger than its
widest child (2). -/
def vWideTree : Buffer :=
  (Buffer.mk {} .ContainerBuffer .Vertical .start [textLeaf "ab"]).setWidth 10

/-- C5: the claim predicts an explicit width of 10 (not smaller than the
maximum child width 2) is kept.  False: the code's condition `maxWidth <
b.Width()` fires exactly when the explicit width is larger, and snaps
the width down to `maxWidth + horizontalPadding` = 2. -/
theorem vertical_width_counterexample :
    (renderB (0, 0) vWideTree).1.style.width ≠ 10 := by
  decide

/-- C5 (amended): for a Vertical container with an explicit (nonzero)
width, the width becomes `maxWidth + horizontalPadding` exactly when the
explicit width is *larger* than the maximum measured child width;
otherwise (explicit width at most the maximum) the explicit width is
kept (and over-wide children are individually shrunk).  An unset width
first passes through the terminal fallback and then follows the same
rule. -/
theorem vertical_explicit_width (t : Nat × Nat) (b : Buffer)
    (hc : b.bufferType = BufferType.ContainerBuffer)
    (ho : b.bufferOrientation = Orient.Vertical)
    (hne : b.components ≠ [])
    (hw : 0 < b.style.width) :
    (renderB t b).1.style.width =
      (if (runMax ((b.components.map Buffer.Size).map Prod.fst)).1 < b.style.width
       then (runMax ((b.components.map Buffer.Size).map Prod.fst)).1 + b.style.hPadding
       else b.style.width) := by
  have hWne : b.UnsetStr.Width ≠ 0 := by
    simp only [Buffer.Width, Buffer.style_UnsetStr]
    omega
  have hcomp : (applyTerminalFallback t b.UnsetStr).components = b.components := by
    rw [atf_components]; simp
  have hW : (applyTerminalFallback t b.UnsetStr).Width = b.style.width := by
    show (applyTerminalFallback t b.UnsetStr).style.width = _
    rw [atf_width_of_ne _ _ hWne]
    simp
  have hPad : (applyTerminalFallback t b.UnsetStr).style.hPadding = b.style.hPadding := by
    rw [atf_hPadding]
    simp [Style.hPadding]
  rw [renderB_container_vertical t b hc ho hne, verticalBranch_width, hcomp, hPad, hW]
  by_cases hlt : (runMax ((b.components.map Buffer.Size).map Prod.fst)).1 < b.style.width
  · rw [if_pos (Or.inl ⟨hlt, hw⟩), if_pos hlt]
  · rw [if_neg (by omega), if_neg hlt]
    exact hW

/-- Closed instance of `vertical_explicit_width` at `vWideTree`: the
explicit width 10 ends as 2 + 0. -/
theorem vertical_explicit_width_witness :
    (vWideTree.bufferType = BufferType.ContainerBuffer ∧
     vWideTree.bufferOrientation = Orient.Vertical ∧
     vWideTree.components ≠ [] ∧ 0 < vWideTree.style.width) ∧
    (renderB (0, 0) vWideTree).1.style.width =
      (if (runMax ((vWideTree.components.map Buffer.Size).map Prod.fst)).1 < vWideTree.style.width
       then (runMax ((vWideTree.components.map Buffer.Size).map Prod.fst)).1 + vWideTree.style.hPadding
       else vWideTree.style.width) :=
  ⟨⟨rfl, rfl, List.cons_ne_nil _ _, by decide⟩,
   vertical_explicit_width (0, 0) vWideTree rfl rfl (List.cons_ne_nil _ _) (by decide)⟩

/-- C8: setting a negative width or height is clamped to 0 by the
lipgloss setter, so the stored dimension, the whole buffer state and in
particular any rendering are identical to those of the buffer with the
dimension set to 0 (unset): a negative value never reaches the pipeline. -/
theorem negative_size_clamped (t : Nat × Nat) (b : Buffer) (n : Int) (h : n < 0) :
    (b.setWidth n).Width = 0 ∧ (b.setHeight n).Height = 0 ∧
    b.setWidth n = b.setWidth 0 ∧ b.setHeight n = b.setHeight 0 ∧
    renderB t (b.setWidth n) = renderB t (b.setWidth 0) ∧
    renderB t (b.setHeight n) = renderB t (b.setHeight 0) := by
  have hzero : n.toNat = 0 := Int.toNat_of_nonpos (le_of_lt h)
  have hw : b.setWidth n = b.setWidth 0 := by
    simp [Buffer.setWidth, Style.setWidth, hzero]
  have hh : b.setHeight n = b.setHeight 0 := by
    simp [Buffer.setHeight, Style.setHeight, hzero]
  refine ⟨?_, ?_, hw, hh, by rw [hw], by rw [hh]⟩
  · show (b.setWidth n).style.width = 0
    simp [hzero]
  · show (b.setHeight n).style.height = 0
    simp [hzero]

/-- Closed instance of `negative_size_clamped` at a text leaf and -5. -/
theorem negative_size_clamped_witness :
    ((-5 : Int) < 0) ∧
    (((textLeaf "hi").setWidth (-5)).Width = 0 ∧
     ((textLeaf "hi").setHeight (-5)).Height = 0 ∧
     (textLeaf "hi").setWidth (-5) = (textLeaf "hi").setWidth 0 ∧
     (textLeaf "hi").setHeight (-5) = (textLeaf "hi").setHeight 0 ∧
     renderB (0, 0) ((textLeaf "hi").setWidth (-5)) = renderB (0, 0) ((textLeaf "hi").setWidth 0) ∧
     renderB (0, 0) ((textLeaf "hi").setHeight (-5)) = renderB (0, 0) ((textLeaf "hi").setHeight 0)) :=
  ⟨by decide, negative_size_clamped (0, 0) (textLeaf "hi") (-5) (by decide)⟩

/-- C9: a buffer with no components and no stored string renders to the
empty string with the buffer unchanged, for every terminal size; the
model's renderer is a total function, so no error path exists. -/
theorem empty_buffer_renders_empty (t : Nat × Nat) (b : Buffer)
    (hv : b.style.value = "") (hcs : b.components = []) :
    renderB t b = (b, "") := by
  simp only [renderB, renderCore, hv, hcs, List.length_nil]
  simp

/-- Closed instance of `empty_buffer_renders_empty` at `New()` and a
live terminal. -/
theorem empty_buffer_renders_empty_witness :
    Buffer.new.style.value = "" ∧ Buffer.new.components = [] ∧
    renderB (80, 24) Buffer.new = (Buffer.new, "") :=
  ⟨rfl, rfl, empty_buffer_renders_empty (80, 24) Buffer.new rfl rfl⟩

theorem UnsetStr_add (b : Buffer) (s : String) : (b.add s).UnsetStr = b.UnsetStr := by
  cases b
  simp [Buffer.add, Buffer.UnsetStr, Buffer.withStyle]

theorem empty_string_append (s : String) : "" ++ s = s := by
  apply String.ext
  simp [String.data_append]

/-- The joined rendering of a container's components, exactly as
`String()` computes it before storing it with `Add`: unset the string,
apply the terminal fallback, measure, resize per orientation, render
every (adjusted) child and join the results. -/
def containerJoined (t : Nat × Nat) (b : Buffer) : String :=
  let child := renderF (csizeL b.components) t
  let b1 := applyTerminalFallback t b.UnsetStr
  let padH := b1.style.hPadding
  let padV := b1.style.vPadding
  let dims := b1.components.map Buffer.Size
  let totalWidth := (dims.map Prod.fst).sum
  let totalHeight := (dims.map Prod.snd).sum
  let mw := runMax (dims.map Prod.fst)
  let maxHeight := foldMax (dims.map Prod.snd)
  match b1.bufferOrientation with
  | .Horizontal =>
    let elNum := b1.components.length
    let wd :=
      if (b1.Width > 0 ∧ totalWidth < b1.Width) ∨ b1.Width = 0 then
        (b1.setWidth (totalWidth : Int), (0 : Int))
      else (b1, (totalWidth : Int) - (b1.Width : Int) - (padH : Int))
    let b2 := wd.1
    let deltaWidth := wd.2
    let b3 := if (maxHeight < b2.Height ∧ b2.Height > 0) ∨ b2.Height = 0 then
        b2.setHeight ((maxHeight : Int) + (padV : Int))
      else b2
    let subtractWidth := Int.fdiv deltaWidth (elNum : Int)
    let subtractWidthDelta := deltaWidth - subtractWidth * (elNum : Int)
    joinHorizontal b3.componentsAlignment
      (renderEach child (hAdjusted b3.components dims subtractWidth subtractWidthDelta mw.2)).2
  | .Vertical =>
    let b2 := if (mw.1 < b1.Width ∧ b1.Width > 0) ∨ b1.Width = 0 then
        b1.setWidth ((mw.1 : Int) + (padH : Int))
      else b1
    let b3 := if (totalHeight < b2.Height ∧ b2.Height > 0) ∨ b2.Height = 0 then
        b2.setHeight ((totalHeight : Int) + (padV : Int))
      else b2
    joinVertical b3.componentsAlignment
      (renderEach child (vAdjusted b3.Width padH b3.components dims)).2

theorem container_value_joined (t : Nat × Nat) (b : Buffer)
    (hc : b.bufferType = BufferType.ContainerBuffer)
    (hne : b.components ≠ []) :
    (renderB t b).1.style.value = containerJoined t b := by
  have hlen : 0 < b.components.length := List.length_pos.mpr hne
  have hcond : ¬(b.style.value = "" ∧ b.components.length = 0) := by
    intro hx
    omega
  have hval1 : (applyTerminalFallback t b.UnsetStr).style.value = "" := by
    rw [atf_value]; simp
  simp only [renderB, renderCore, containerJoined, hcond, hc, hlen, if_true, if_false]
  cases horient : (applyTerminalFallback t b.UnsetStr).bufferOrientation with
  | Horizontal =>
    simp only [horizontalBranch, horient]
    split_ifs <;>
      simp_all [Style.setWidth, Style.setHeight, empty_string_append]
  | Vertical =>
    simp only [verticalBranch, horient]
    split_ifs <;>
      simp_all [Style.setWidth, Style.setHeight, empty_string_append]

/-- C10: a `ContainerBuffer` with at least one component first discards
any text previously stored with `Add`/`Addln` — rendering `b.add s` is
indistinguishable from rendering `b` (state and output), so the stored
text never appears in the output — and afterwards the buffer's stored
string is exactly the joined rendering of its components. -/
theorem container_discards_stored_text (t : Nat × Nat) (b : Buffer) (s : String)
    (hc : b.bufferType = BufferType.ContainerBuffer)
    (hne : b.components ≠ []) :
    renderB t (b.add s) = renderB t b ∧
    (renderB t b).1.style.value = containerJoined t b := by
  constructor
  · have hlen : 0 < b.components.length := List.length_pos.mpr hne
    have hconda : ¬((b.add s).style.value = "" ∧ b.components.length = 0) := by
      intro hx
      omega
    have hcondb : ¬(b.style.value = "" ∧ b.components.length = 0) := by
      intro hx
      omega
    simp only [renderB, renderCore, Buffer.components_add, Buffer.bufferType_add,
      UnsetStr_add, hc, if_neg hconda, if_neg hcondb, hlen, if_true, if_pos hlen]
  · exact container_value_joined t b hc hne

/-- A container with one child and some stored text, for the C10
witness. -/
def discardTree : Buffer := Buffer.mk {} .ContainerBuffer .Vertical .start [textLeaf "kid"]

/-- Closed instance of `container_discards_stored_text`: adding the text
"ghost" before rendering changes nothing, and the stored string after
rendering is the joined rendering of the components. -/
theorem container_discards_stored_text_witness :
    (discardTree.bufferType = BufferType.ContainerBuffer ∧ discardTree.components ≠ []) ∧
    (renderB (0, 0) (discardTree.add "ghost") = renderB (0, 0) discardTree ∧
     (renderB (0, 0) discardTree).1.style.value = containerJoined (0, 0) discardTree) :=
  ⟨⟨rfl, List.cons_ne_nil _ _⟩,
   container_discards_stored_text (0, 0) discardTree "ghost" rfl (List.cons_ne_nil _ _)⟩

/-! C7: a terminal size of (0,0) means "no fallback available". -/

theorem atf_zero (b : Buffer) : applyTerminalFallback (0, 0) b = b := by
  simp [applyTerminalFallback]

/-- Modelled from the spec: the compositor with the terminal-size
fallback step removed ("the Compositor must treat (0,0) as no fallback
available and leave dimensions at their natural (content-driven) size"):
the body of `renderCore` without the `applyTerminalFallback` step. -/
def renderCoreNoTerm (child : Buffer → Buffer × String) (b : Buffer) :
    Buffer × String :=
  let elNum := b.components.length
  if b.style.value = "" ∧ elNum = 0 then (b, "")
  else
    match b.bufferType with
    | .ContainerBuffer =>
      if 0 < elNum then
        let b := b.UnsetStr
        let padH := b.style.hPadding
        let padV := b.style.vPadding
        let dims := b.components.map Buffer.Size
        let totalWidth := (dims.map Prod.fst).sum
        let totalHeight := (dims.map Prod.snd).sum
        let mw := runMax (dims.map Prod.fst)
        let maxHeight := foldMax (dims.map Prod.snd)
        match b.bufferOrientation with
        | .Horizontal => horizontalBranch child b padH padV dims totalWidth maxHeight mw
        | .Vertical => verticalBranch child b padH padV dims totalHeight mw.1
      else (b, b.style.render)
    | .TextBuffer => textBranch child b

/-- Fuelled recursion for `renderCoreNoTerm`, as `renderF` is for
`renderCore`. -/
def renderNTF : Nat → Buffer → Buffer × String
  | 0, b => (b, "")
  | n + 1, b => renderCoreNoTerm (renderNTF n) b

/-- The spec-side renderer that never consults a terminal-size source. -/
def renderNoTerm (b : Buffer) : Buffer × String :=
  renderCoreNoTerm (renderNTF (csizeL b.components)) b

theorem renderCore_zero_eq (child : Buffer → Buffer × String) (b : Buffer) :
    renderCore child (0, 0) b = renderCoreNoTerm child b := by
  simp only [renderCore, renderCoreNoTerm, atf_zero]

theorem renderF_zero_eq : ∀ n, renderF n (0, 0) = renderNTF n := by
  intro n
  induction n with
  | zero => funext b; rfl
  | succ n ih =>
    funext b
    show renderCore (renderF n (0, 0)) (0, 0) b = renderCoreNoTerm (renderNTF n) b
    rw [ih, renderCore_zero_eq]

/-- C7: when the terminal-size source reports (0,0), the fallback step
is the identity, and rendering the whole tree coincides with the
spec-side compositor that never queries a terminal: every unset
dimension keeps its natural content-driven handling and is never set
from the terminal query. -/
theorem terminal_zero_no_fallback (b : Buffer) :
    applyTerminalFallback (0, 0) b = b ∧ renderB (0, 0) b = renderNoTerm b := by
  refine ⟨atf_zero b, ?_⟩
  show renderCore (renderF (csizeL b.components) (0, 0)) (0, 0) b = _
  rw [renderF_zero_eq, renderCore_zero_eq]
  rfl

/-! Reading `lipgloss.Size` back through the pipeline: the rendered
string splits back into exactly the rendered line block, because the
block is nonempty and its lines are newline-free. -/

theorem splitNl_append (l : Line) (cs : List Char) (x : Line) (xs : List Line)
    (hl : '\n' ∉ l) (h : splitNl cs = x :: xs) :
    splitNl (l ++ cs) = (l ++ x) :: xs := by
  induction l with
  | nil => simpa using h
  | cons c l ih =>
    have hc : c ≠ '\n' := fun he => hl (by simp [he])
    have hrec : splitNl (l ++ cs) = (l ++ x) :: xs := ih (fun hm => hl (by simp [hm]))
    rw [List.cons_append]
    simp only [splitNl, hrec, if_neg hc, List.cons_append]

theorem splitNl_nlfree (l : Line) (hl : '\n' ∉ l) : splitNl l = [l] := by
  have := splitNl_append l [] [] [] hl rfl
  simpa using this

theorem splitNl_intercalate (ls : List Line) (hne : ls ≠ [])
    (hnl : ∀ l ∈ ls, '\n' ∉ l) :
    splitNl (List.intercalate ['\n'] ls) = ls := by
  induction ls with
  | nil => exact absurd rfl hne
  | cons l ls ih =>
    match ls with
    | [] =>
      have hone : List.intercalate ['\n'] [l] = l := by
        simp [List.intercalate]
      rw [hone]
      exact splitNl_nlfree l (hnl l (by simp))
    | l2 :: ls2 =>
      have hrest : splitNl (List.intercalate ['\n'] (l2 :: ls2)) = l2 :: ls2 :=
        ih (by simp) (fun x hx => hnl x (List.mem_cons_of_mem _ hx))
      have hstep : List.intercalate ['\n'] (l :: l2 :: ls2) =
          l ++ '\n' :: List.intercalate ['\n'] (l2 :: ls2) := by
        simp [List.intercalate, List.intersperse_cons_cons]
      rw [hstep]
      have hsplit : splitNl ('\n' :: List.intercalate ['\n'] (l2 :: ls2)) =
          [] :: l2 :: ls2 := by
        simp only [splitNl, hrest]
        simp
      have := splitNl_append l ('\n' :: List.intercalate ['\n'] (l2 :: ls2))
        [] (l2 :: ls2) (hnl l (by simp)) hsplit
      simpa using this

theorem nlfree_sp (n : Nat) : '\n' ∉ sp n := by
  intro h
  have := List.eq_of_mem_replicate h
  simp at this

theorem nlfree_append {a b : Line} (ha : '\n' ∉ a) (hb : '\n' ∉ b) : '\n' ∉ a ++ b := by
  intro h
  rcases List.mem_append.mp h with h1 | h1
  · exact ha h1
  · exact hb h1

theorem nlfree_padShort (pos : Pos) (short : Nat) (l : Line) (hl : '\n' ∉ l) :
    '\n' ∉ padShort pos short l := by
  cases pos <;> simp only [padShort] <;>
    first
    | exact nlfree_append hl (nlfree_sp _)
    | exact nlfree_append (nlfree_sp _) hl
    | exact nlfree_append (nlfree_append (nlfree_sp _) hl) (nlfree_sp _)

theorem mem_splitNl_nlfree (cs : List Char) : ∀ l ∈ splitNl cs, '\n' ∉ l := by
  induction cs with
  | nil =>
    intro l hl
    simp only [splitNl, List.mem_singleton] at hl
    simp [hl]
  | cons c rest ih =>
    intro l hl
    simp only [splitNl] at hl
    cases hS : splitNl rest with
    | nil => exact absurd hS (splitNl_ne_nil rest)
    | cons s0 S =>
      simp only [hS] at hl
      by_cases hc : c = '\n'
      · rw [if_pos hc] at hl
        rcases List.mem_cons.mp hl with h1 | h1
        · simp [h1]
        · exact ih l (hS ▸ h1)
      · rw [if_neg hc] at hl
        rcases List.mem_cons.mp hl with h1 | h1
        · subst h1
          intro hm
          rcases List.mem_cons.mp hm with h2 | h2
          · exact hc h2.symm
          · exact ih s0 (hS ▸ List.mem_cons_self _ _) h2
        · exact ih l (hS ▸ List.mem_cons_of_mem _ h1)

theorem mem_chunkAux_nlfree (n : Nat) :
    ∀ (fuel : Nat) (l : Line), '\n' ∉ l → ∀ p ∈ chunkAux n fuel l, '\n' ∉ p := by
  intro fuel
  induction fuel with
  | zero =>
    intro l hl p hp
    simp only [chunkAux] at hp
    split at hp <;> simp only [List.mem_singleton] at hp <;> simp [hp, hl]
  | succ fuel ih =>
    intro l hl p hp
    simp only [chunkAux] at hp
    split at hp
    · simp only [List.mem_singleton] at hp
      simp [hp, hl]
    · rcases List.mem_cons.mp hp with h1 | h1
      · subst h1
        intro hm
        exact hl (List.take_subset n l hm)
      · exact ih (l.drop n) (fun hm => hl (List.drop_subset n l hm)) p h1

theorem mem_chunk_nlfree (n : Nat) (l : Line) (hl : '\n' ∉ l) :
    ∀ p ∈ chunk n l, '\n' ∉ p := mem_chunkAux_nlfree n l.length l hl

theorem mem_wrapLines_nlfree (limit : Int) (ls : List Line)
    (h : ∀ l ∈ ls, '\n' ∉ l) : ∀ p ∈ wrapLines limit ls, '\n' ∉ p := by
  intro p hp
  simp only [wrapLines] at hp
  split at hp
  · exact h p hp
  · rcases List.mem_flatMap.mp hp with ⟨l, hl, hpl⟩
    exact mem_chunk_nlfree _ l (h l hl) p hpl

theorem mem_alignLinesV_nlfree (pos : Pos) (height : Nat) (ls : List Line)
    (h : ∀ l ∈ ls, '\n' ∉ l) : ∀ p ∈ alignLinesV pos height ls, '\n' ∉ p := by
  intro p hp
  have hrep : ∀ (n : Nat), p ∈ List.replicate n ([] : Line) → '\n' ∉ p := by
    intro n hn
    rw [List.eq_of_mem_replicate hn]
    simp
  simp only [alignLinesV] at hp
  split at hp
  · exact h p hp
  · cases pos <;> simp only at hp
    · rcases List.mem_append.mp hp with h1 | h1
      · exact h p h1
      · exact hrep _ h1
    · rcases List.mem_append.mp hp with h1 | h1
      · rcases List.mem_append.mp h1 with h2 | h2
        · exact hrep _ h2
        · exact h p h2
      · exact hrep _ h1
    · rcases List.mem_append.mp hp with h1 | h1
      · exact hrep _ h1
      · exact h p h1

theorem mem_alignLinesH_nlfree (pos : Pos) (width : Nat) (ls : List Line)
    (h : ∀ l ∈ ls, '\n' ∉ l) : ∀ p ∈ alignLinesH pos width ls, '\n' ∉ p := by
  intro p hp
  simp only [alignLinesH] at hp
  rcases List.mem_map.mp hp with ⟨l, hl, hpl⟩
  subst hpl
  split
  · exact nlfree_padShort _ _ _ (h l hl)
  · exact h l hl

theorem mem_applyMarginsL_nlfree (st : Style) (ls : List Line)
    (h : ∀ l ∈ ls, '\n' ∉ l) : ∀ p ∈ st.applyMarginsL ls, '\n' ∉ p := by
  intro p hp
  simp only [Style.applyMarginsL] at hp
  rcases List.mem_append.mp hp with h1 | h1
  · rcases List.mem_append.mp h1 with h2 | h2
    · have := List.eq_of_mem_replicate h2
      subst this
      exact nlfree_sp _
    · rcases List.mem_map.mp h2 with ⟨l, hl, hpl⟩
      subst hpl
      exact nlfree_append (nlfree_append (nlfree_sp _) (h l hl)) (nlfree_sp _)
  · have := List.eq_of_mem_replicate h1
    subst this
    exact nlfree_sp _

theorem preAlignLines_nlfree (st : Style) : ∀ l ∈ st.preAlignLines, '\n' ∉ l := by
  have hbase : ∀ l ∈ (if st.width > 0 then
      wrapLines ((st.width : Int) - (st.padLeft : Int) - (st.padRight : Int))
        (splitNl st.value.data)
    else splitNl st.value.data), '\n' ∉ l := by
    split
    · exact mem_wrapLines_nlfree _ _ (mem_splitNl_nlfree _)
    · exact mem_splitNl_nlfree _
  have hpad : ∀ l ∈ (List.replicate st.padTop [] ++
      ((if st.width > 0 then
          wrapLines ((st.width : Int) - (st.padLeft : Int) - (st.padRight : Int))
            (splitNl st.value.data)
        else splitNl st.value.data).map (fun l => sp st.padLeft ++ l)).map
        (fun l => l ++ sp st.padRight) ++
      List.replicate st.padBottom []), '\n' ∉ l := by
    intro p hp
    rcases List.mem_append.mp hp with h1 | h1
    · rcases List.mem_append.mp h1 with h2 | h2
      · rw [List.eq_of_mem_replicate h2]
        simp
      · rcases List.mem_map.mp h2 with ⟨r, hr, hpr⟩
        rcases List.mem_map.mp hr with ⟨r2, hr2, hrr⟩
        subst hpr; subst hrr
        exact nlfree_append (nlfree_append (nlfree_sp _) (hbase r2 hr2)) (nlfree_sp _)
    · rw [List.eq_of_mem_replicate h1]
      simp
  intro p hp
  simp only [Style.preAlignLines] at hp
  split at hp
  · exact mem_alignLinesV_nlfree _ _ _ hpad p hp
  · exact hpad p hp

theorem renderLines_nlfree (st : Style) : ∀ l ∈ st.renderLines, '\n' ∉ l := by
  simp only [Style.renderLines]
  apply mem_applyMarginsL_nlfree
  intro p hp
  split at hp
  · exact preAlignLines_nlfree st p hp
  · exact mem_alignLinesH_nlfree _ _ _ (preAlignLines_nlfree st) p hp

theorem chunkAux_ne_nil (n fuel : Nat) (l : List Char) : chunkAux n fuel l ≠ [] := by
  cases fuel <;> simp only [chunkAux] <;> split <;> simp

theorem length_wrapLines_pos (limit : Int) (ls : List Line) (h : 0 < ls.length) :
    0 < (wrapLines limit ls).length := by
  simp only [wrapLines]
  split
  · exact h
  · match ls with
    | [] => simp at h
    | l :: rest =>
      rw [List.flatMap_cons]
      have := chunkAux_ne_nil limit.toNat l.length l
      have hpos : 0 < (chunk limit.toNat l).length := List.length_pos.mpr this
      simp only [List.length_append]
      omega

theorem length_alignLinesV (pos : Pos) (height : Nat) (ls : List Line) :
    (alignLinesV pos height ls).length = max ls.length height := by
  simp only [alignLinesV]
  split
  · omega
  · cases pos <;> simp <;> omega

theorem length_alignLinesH (pos : Pos) (w : Nat) (ls : List Line) :
    (alignLinesH pos w ls).length = ls.length := by
  simp [alignLinesH]

theorem length_applyMarginsL (st : Style) (ls : List Line) :
    (st.applyMarginsL ls).length = st.marTop + ls.length + st.marBottom := by
  simp [Style.applyMarginsL]
  omega

theorem preAlignLines_length_pos (st : Style) : 0 < st.preAlignLines.length := by
  have h0 : 0 < (splitNl st.value.data).length :=
    List.length_pos.mpr (splitNl_ne_nil _)
  have h1 : 0 < (if st.width > 0 then
      wrapLines ((st.width : Int) - (st.padLeft : Int) - (st.padRight : Int))
        (splitNl st.value.data)
    else splitNl st.value.data).length := by
    split
    · exact length_wrapLines_pos _ _ h0
    · exact h0
  simp only [Style.preAlignLines]
  split
  · rw [length_alignLinesV]
    simp only [List.length_append, List.length_map, List.length_replicate]
    omega
  · simp only [List.length_append, List.length_map, List.length_replicate]
    omega

theorem renderLines_ne_nil (st : Style) : st.renderLines ≠ [] := by
  have hp := preAlignLines_length_pos st
  apply List.ne_nil_of_length_pos
  simp only [Style.renderLines, length_applyMarginsL]
  split
  · omega
  · rw [length_alignLinesH]
    omega

/-- `Size()` of a buffer, read off the line block of the pipeline. -/
theorem Size_eq_renderLines (b : Buffer) :
    b.Size = (blockW (Style.renderLines b.style), (Style.renderLines b.style).length) := by
  show lipglossSize (Style.render b.style) = _
  unfold lipglossSize Style.render
  rw [show (String.mk (List.intercalate ['\n'] (Style.renderLines b.style))).data =
      List.intercalate ['\n'] (Style.renderLines b.style) from rfl]
  rw [splitNl_intercalate _ (renderLines_ne_nil _) (renderLines_nlfree _)]

/-! Width bookkeeping for the rendered line block. -/

theorem length_padShort (pos : Pos) (short : Nat) (l : Line) :
    (padShort pos short l).length = l.length + short := by
  cases pos <;> simp [padShort, sp] <;> omega

theorem blockW_nil : blockW [] = 0 := rfl

theorem blockW_cons (l : Line) (ls : List Line) :
    blockW (l :: ls) = max l.length (blockW ls) := rfl

theorem blockW_append (a b : List Line) :
    blockW (a ++ b) = max (blockW a) (blockW b) := by
  induction a with
  | nil => simp [blockW]
  | cons l ls ih =>
    simp only [List.cons_append, blockW_cons, ih, blockW_cons]
    omega

theorem blockW_replicate (n : Nat) (l : Line) :
    blockW (List.replicate n l) = if n = 0 then 0 else l.length := by
  induction n with
  | zero => simp [blockW]
  | succ n ih =>
    rw [List.replicate_succ, blockW_cons, ih]
    split <;> simp_all

theorem le_blockW (l : Line) (ls : List Line) (h : l ∈ ls) : l.length ≤ blockW ls := by
  induction ls with
  | nil => simp at h
  | cons x xs ih =>
    rw [blockW_cons]
    rcases List.mem_cons.mp h with h1 | h1
    · subst h1; omega
    · have := ih h1; omega

theorem blockW_const (ls : List Line) (c : Nat) (hne : ls ≠ [])
    (h : ∀ l ∈ ls, l.length = c) : blockW ls = c := by
  induction ls with
  | nil => exact absurd rfl hne
  | cons x xs ih =>
    rw [blockW_cons, h x (by simp)]
    match xs with
    | [] => simp [blockW]
    | y :: ys =>
      rw [ih (by simp) (fun l hl => h l (List.mem_cons_of_mem _ hl))]
      omega

theorem mem_alignLinesH_length (pos : Pos) (w : Nat) (ls : List Line) :
    ∀ p ∈ alignLinesH pos w ls, p.length = max (blockW ls) w := by
  intro p hp
  simp only [alignLinesH] at hp
  rcases List.mem_map.mp hp with ⟨l, hl, hpl⟩
  have hle := le_blockW l ls hl
  subst hpl
  split
  · rw [length_padShort]
    omega
  · omega

theorem blockW_applyMarginsL (st : Style) (ls : List Line) :
    blockW (st.applyMarginsL ls) =
      blockW (ls.map (fun l => sp st.marLeft ++ l ++ sp st.marRight)) := by
  simp only [Style.applyMarginsL]
  rw [blockW_append, blockW_append, blockW_replicate, blockW_replicate]
  simp only [sp, List.length_replicate]
  split <;> split <;> omega

/-! The measured size of a style with no content and unset dimensions. -/

theorem preAlignLines_empty (st : Style) (hv : st.value = "") (hw : st.width = 0)
    (hh : st.height = 0) :
    st.preAlignLines =
      (List.replicate st.padTop [] ++ [sp st.padLeft ++ sp st.padRight]) ++
        List.replicate st.padBottom [] := by
  simp only [Style.preAlignLines, hv, hw, hh]
  norm_num [splitNl]

theorem empty_text_size_computation (st : Style) (hv : st.value = "") (hw : st.width = 0)
    (hh : st.height = 0) :
    blockW (Style.renderLines st) = st.hFrame ∧
    (Style.renderLines st).length = st.vFrame + 1 := by
  have hpre := preAlignLines_empty st hv hw hh
  have hlenP : st.preAlignLines.length = st.padTop + 1 + st.padBottom := by
    rw [hpre]
    simp only [List.length_append, List.length_replicate, List.length_cons, List.length_nil]
  have hblockP : blockW st.preAlignLines = st.padLeft + st.padRight := by
    rw [hpre, blockW_append, blockW_append, blockW_replicate, blockW_replicate,
      blockW_cons, blockW_nil]
    simp only [sp, List.length_append, List.length_replicate, List.length_nil]
    split <;> split <;> omega
  constructor
  · simp only [Style.renderLines]
    rw [blockW_applyMarginsL]
    split
    · rename_i hcond
      have hone : st.padTop = 0 ∧ st.padBottom = 0 := by
        have := hcond.1
        rw [hlenP] at this
        omega
      rw [hpre, hone.1, hone.2]
      simp only [List.replicate_zero, List.nil_append, List.append_nil, List.map_cons, List.map_nil]
      simp [blockW, sp, Style.hFrame, Style.hPadding]
      omega
    · have hne : alignLinesH st.alignH st.width st.preAlignLines ≠ [] := by
        have hl2 : (alignLinesH st.alignH st.width st.preAlignLines).length =
            st.padTop + 1 + st.padBottom := by
          rw [length_alignLinesH, hlenP]
        intro hx
        rw [hx] at hl2
        simp at hl2
        omega
      have hmem : ∀ l ∈ alignLinesH st.alignH st.width st.preAlignLines,
          l.length = st.padLeft + st.padRight := by
        intro l hl
        have := mem_alignLinesH_length st.alignH st.width st.preAlignLines l hl
        rw [hblockP, hw] at this
        omega
      have hconst : ∀ p ∈ (alignLinesH st.alignH st.width st.preAlignLines).map
          (fun l => sp st.marLeft ++ l ++ sp st.marRight),
          p.length = st.marLeft + (st.padLeft + st.padRight) + st.marRight := by
        intro p hp
        rcases List.mem_map.mp hp with ⟨l, hl, hpl⟩
        subst hpl
        simp [sp, hmem l hl]
        omega
      rw [blockW_const _ _ (by simpa using hne) hconst]
      simp [Style.hFrame, Style.hPadding]
      omega
  · simp only [Style.renderLines]
    rw [length_applyMarginsL]
    split
    · rw [hlenP]
      simp [Style.vFrame, Style.vPadding]
      omega
    · rw [length_alignLinesH, hlenP]
      simp [Style.vFrame, Style.vPadding]
      omega

/-- C6: the claim predicts `Size() = (hFrame, vFrame)` for an empty text
buffer.  False already for `New()`: the empty string still splits into
one (empty) line, so the measured height is 1, not 0. -/
theorem empty_text_size_counterexample :
    Buffer.new.Size ≠ Buffer.new.FrameSize := by
  decide

/-- C6 (amended): a Text buffer with no content, no components and unset
width/height measures to `(0, 1)` plus its frame: `Size()` returns
exactly `(horizontalFrameSize, verticalFrameSize + 1)` — the empty
content still occupies one empty line. -/
theorem empty_text_measures_frame (b : Buffer)
    (ht : b.bufferType = BufferType.TextBuffer) (hcs : b.components = [])
    (hv : b.style.value = "") (hw : b.style.width = 0) (hh : b.style.height = 0) :
    b.Size = (b.style.hFrame, b.style.vFrame + 1) := by
  rw [Size_eq_renderLines]
  have h := empty_text_size_computation b.style hv hw hh
  rw [h.1, h.2]

/-- An empty text buffer with a nontrivial frame: paddings (1,2,3,4) and
margins (1,1,2,0). -/
def framedEmpty : Buffer :=
  Buffer.mk
    { padTop := 1, padRight := 2, padBottom := 3, padLeft := 4,
      marTop := 1, marRight := 1, marBottom := 2, marLeft := 0 }
    .TextBuffer .Vertical .start []

/-- Closed instance of `empty_text_measures_frame` at `framedEmpty`:
size (6, 8) = (hFrame, vFrame + 1). -/
theorem empty_text_measures_frame_witness :
    (framedEmpty.bufferType = BufferType.TextBuffer ∧ framedEmpty.components = [] ∧
     framedEmpty.style.value = "" ∧ framedEmpty.style.width = 0 ∧
     framedEmpty.style.height = 0) ∧
    framedEmpty.Size = (framedEmpty.style.hFrame, framedEmpty.style.vFrame + 1) :=
  ⟨⟨rfl, rfl, rfl, rfl, rfl⟩,
   empty_text_measures_frame framedEmpty rfl rfl rfl rfl rfl⟩
